import Mathlib

/-!
Verification of the Resume-Screening-Parser scoring and parsing core.

The Python source is shallowly embedded: Python floats are modelled as exact
rationals, Python strings as Lean strings (with an ASCII model of str.lower),
Python sets of strings as finite sets, and the regular-expression based
extraction code as an executable backtracking matcher over lists of
characters, with each regex hand-compiled into a pattern value.
-/

namespace ResumeScreening

/-! ## String basics: ASCII model of Python str.lower / str.strip -/

/-- ASCII uppercase letter test (Python str.isupper on ASCII). -/
def isAsciiUpper (c : Char) : Bool := 'A' ≤ c && c ≤ 'Z'

/-- ASCII model of Python str.lower applied to a single character. -/
def lowerChar (c : Char) : Char :=
  if isAsciiUpper c then Char.ofNat (c.toNat + 32) else c

/-- ASCII model of Python str.lower on a string. -/
def lowerStr (s : String) : String := ⟨s.data.map lowerChar⟩

/-- Python whitespace class \s (ASCII part). -/
def pySpace (c : Char) : Bool :=
  c = ' ' || c = '\t' || c = '\n' || c = '\r' || c = '\x0b' || c = '\x0c'

/-- Python str.strip on a character list. -/
def pyStrip (l : List Char) : List Char :=
  ((l.dropWhile pySpace).reverse.dropWhile pySpace).reverse

/-- Lowercase a character list (Python str.lower on the text). -/
def lowerList (l : List Char) : List Char := l.map lowerChar

/-! ## Rounding: Python round(x, 2) modelled over exact rationals -/

/-- Round a rational to the nearest integer, ties to even
(Python banker's rounding, with floats modelled as exact rationals). -/
def roundHalfEven (x : ℚ) : ℤ :=
  let f := ⌊x⌋
  let r := x - (f : ℚ)
  if r < 1/2 then f
  else if 1/2 < r then f + 1
  else if f % 2 = 0 then f else f + 1

/-- Python round(x, 2): two decimal places. -/
def pyRound2 (x : ℚ) : ℚ := (roundHalfEven (x * 100) : ℚ) / 100

/-! ## Scorer: src/matcher/scorer.py, class ResumeScorer -/

/-- Scoring weights (config key weights in ResumeScorer._load_config). -/
structure Weights where
  required_skills : ℚ
  preferred_skills : ℚ
  experience : ℚ
  keyword_density : ℚ
  deriving Repr, DecidableEq

/-- Default weights from ResumeScorer._load_config. -/
def defaultWeights : Weights :=
  { required_skills := 0.50
    preferred_skills := 0.25
    experience := 0.15
    keyword_density := 0.10 }

/-- Default experience_tolerance from ResumeScorer._load_config. -/
def defaultExperienceTolerance : ℕ := 2

/-- ResumeScorer._calculate_skill_match: share of JD skills present in the
resume skill set; full credit when the JD set is empty. -/
def calcSkillMatch (resumeSkills jdSkills : Finset String) : ℚ :=
  if jdSkills = ∅ then 1
  else ((resumeSkills ∩ jdSkills).card : ℚ) / (jdSkills.card : ℚ)

/-- ResumeScorer._calculate_experience_match.  Inputs are the (nonnegative
integer) years from resume and JD; the tolerance comparison is done over ℤ
exactly as Python evaluates resume_exp >= required_exp - tolerance. -/
def calcExperienceMatch (tolerance : ℕ) (resumeExp requiredExp : ℕ) : ℚ :=
  if requiredExp = 0 then 1
  else if requiredExp ≤ resumeExp then 1
  else if (requiredExp : ℤ) - (tolerance : ℤ) ≤ (resumeExp : ℤ) then
    max (7/10) (1 - ((requiredExp - resumeExp : ℕ) : ℚ) / ((tolerance : ℚ) + 1) * (3/10))
  else max 0 ((resumeExp : ℚ) / (requiredExp : ℚ) * (7/10))

/-- ResumeScorer._calculate_keyword_match. -/
def calcKeywordMatch (resumeKeywords jdKeywords : List String) : ℚ :=
  if jdKeywords = [] then 1
  else
    let resumeKeywordSet := (resumeKeywords.map lowerStr).toFinset
    let jdKeywordSet := (jdKeywords.map lowerStr).toFinset
    let matchedKeywords := resumeKeywordSet ∩ jdKeywordSet
    if jdKeywordSet = ∅ then 1
    else
      let matchRatio := (matchedKeywords.card : ℚ) / (jdKeywordSet.card : ℚ)
      let frequencyBonus : ℚ :=
        if resumeKeywords ≠ [] then
          min (2/10)
            ((resumeKeywords.countP (fun kw => lowerStr kw ∈ jdKeywordSet) : ℚ)
              / (resumeKeywords.length : ℚ))
        else 0
      min 1 (matchRatio + frequencyBonus)

/-- The jd_data dictionary fields read by ResumeScorer.score_resume. -/
structure JDInput where
  required_skills : List String
  preferred_skills : List String
  keywords : List String
  min_experience : ℕ

/-- The dictionary returned by ResumeScorer.score_resume. -/
structure ScoreBreakdown where
  total_score : ℚ
  required_skills_score : ℚ
  preferred_skills_score : ℚ
  experience_score : ℚ
  keyword_score : ℚ
  matched_required_skills : Finset String
  matched_preferred_skills : Finset String
  missing_required_skills : Finset String
  resume_experience : ℕ
  required_experience : ℕ

/-- ResumeScorer.score_resume. -/
def scoreResume (w : Weights) (tolerance : ℕ) (resumeSkills : Finset String)
    (resumeExperience : ℕ) (resumeKeywords : List String) (jd : JDInput) :
    ScoreBreakdown :=
  let jdRequired := (jd.required_skills.map lowerStr).toFinset
  let jdPreferred := (jd.preferred_skills.map lowerStr).toFinset
  let requiredScore := calcSkillMatch resumeSkills jdRequired
  let preferredScore := calcSkillMatch resumeSkills jdPreferred
  let experienceScore := calcExperienceMatch tolerance resumeExperience jd.min_experience
  let keywordScore := calcKeywordMatch resumeKeywords jd.keywords
  let totalScore :=
    requiredScore * w.required_skills +
    preferredScore * w.preferred_skills +
    experienceScore * w.experience +
    keywordScore * w.keyword_density
  { total_score := pyRound2 (totalScore * 100)
    required_skills_score := pyRound2 (requiredScore * 100)
    preferred_skills_score := pyRound2 (preferredScore * 100)
    experience_score := pyRound2 (experienceScore * 100)
    keyword_score := pyRound2 (keywordScore * 100)
    matched_required_skills := resumeSkills ∩ jdRequired
    matched_preferred_skills := resumeSkills ∩ jdPreferred
    missing_required_skills := jdRequired \ resumeSkills
    resume_experience := resumeExperience
    required_experience := jd.min_experience }

/-! ## Ranking: ResumeScorer.rank_resumes -/

/-- One element of the scored_resumes list handed to rank_resumes: a record
holding the resume's identity and the nested score dictionary, mirroring
the Python dict with key score. -/
structure RankedEntry where
  resume_id : String
  score : ScoreBreakdown

/-- The descending comparison used by rank_resumes
(Python sorted with key total_score and reverse=True). -/
def rankRel (a b : RankedEntry) : Prop := b.score.total_score ≤ a.score.total_score

instance : DecidableRel rankRel := fun a b =>
  inferInstanceAs (Decidable (b.score.total_score ≤ a.score.total_score))

/-- ResumeScorer.rank_resumes: Python sorted is a stable sort; with
reverse=True it is the unique stable sort for the reversed comparison,
which insertion sort under rankRel computes. -/
def rankResumes (scoredResumes : List RankedEntry) : List RankedEntry :=
  List.insertionSort rankRel scoredResumes

/-! ## A small executable regex engine

The extraction code is regex driven; each Python pattern is hand-compiled
into an RE value below.  The matcher enumerates the possible matches of a
pattern at a position in backtracking priority order (alternatives left to
right, greedy repetition longest first, lazy repetition shortest first),
which is the order in which the Python re engine finds matches, so the
head of the enumeration is the match re.search / re.finditer reports. -/

/-- Regex abstract syntax: char class, concatenation, prioritized
alternation, greedy/lazy repetition, capture group, word boundary,
end anchor, lookahead. -/
inductive RE where
  | eps : RE
  | cls : (Char → Bool) → RE
  | cat : RE → RE → RE
  | alt : RE → RE → RE
  | star : Bool → RE → RE
  | grp : ℕ → RE → RE
  | bnd : RE
  | eos : RE
  | la : RE → RE

/-- Captured groups: group index paired with the captured characters. -/
abbrev Caps := List (ℕ × List Char)

/-- Python \w test, used by the \b word-boundary assertion. -/
def isWordChar (c : Char) : Bool := c.isAlpha || c.isDigit || c = '_'

/-- \b holds between two context characters iff exactly one side is a word
character (text ends count as non-word). -/
def atBoundary (prev next : Option Char) : Bool :=
  (match prev with | none => false | some c => isWordChar c) !=
  (match next with | none => false | some c => isWordChar c)

/-- Enumerate the matches of a pattern at the head of the input, in
backtracking priority order.  Each result is (captures, last consumed
character, remaining input).  prev is the character just before the
current position (for \b).  fuel bounds recursion depth; callers pass
enough fuel that repetition is never cut short on their inputs. -/
def mrun : ℕ → RE → Option Char → List Char → List (Caps × Option Char × List Char)
  | _, RE.eps, prev, s => [([], prev, s)]
  | _, RE.cls f, _, s =>
    match s with
    | [] => []
    | c :: t => if f c then [([], some c, t)] else []
  | 0, RE.cat _ _, _, _ => []
  | n + 1, RE.cat a b, prev, s =>
    (mrun n a prev s).flatMap (fun x =>
      (mrun n b x.2.1 x.2.2).map (fun y => (x.1 ++ y.1, y.2)))
  | 0, RE.alt _ _, _, _ => []
  | n + 1, RE.alt a b, prev, s => mrun n a prev s ++ mrun n b prev s
  | 0, RE.star _ _, prev, s => [([], prev, s)]
  | n + 1, RE.star greedy a, prev, s =>
    let once := (mrun n a prev s).flatMap (fun x =>
      if x.2.2.length < s.length then
        (mrun n (RE.star greedy a) x.2.1 x.2.2).map (fun y => (x.1 ++ y.1, y.2))
      else [])
    if greedy then once ++ [([], prev, s)] else ([], prev, s) :: once
  | 0, RE.grp _ _, _, _ => []
  | n + 1, RE.grp i a, prev, s =>
    (mrun n a prev s).map (fun x =>
      (x.1 ++ [(i, s.take (s.length - x.2.2.length))], x.2))
  | _, RE.bnd, prev, s => if atBoundary prev s.head? then [([], prev, s)] else []
  | _, RE.eos, prev, s => if s = [] || s = ['\n'] then [([], prev, s)] else []
  | 0, RE.la _, _, _ => []
  | n + 1, RE.la a, prev, s => if (mrun n a prev s).isEmpty then [] else [([], prev, s)]

/-- Structural size of a pattern, used to budget matcher fuel. -/
def reSize : RE → ℕ
  | RE.eps => 1
  | RE.cls _ => 1
  | RE.cat a b => reSize a + reSize b + 1
  | RE.alt a b => reSize a + reSize b + 1
  | RE.star _ a => reSize a + 1
  | RE.grp _ a => reSize a + 1
  | RE.bnd => 1
  | RE.eos => 1
  | RE.la a => reSize a + 1

/-- Fuel that comfortably covers the matcher's recursion depth on the
given input: depth only grows by descending into subpatterns or by a
repetition step that consumed input. -/
def reFuel (re : RE) (s : List Char) : ℕ := (reSize re + 2) * (s.length + 2)

/-- All matches found by re.finditer: scan left to right, take at each
position the engine's first match, resume after it (advancing one
character past an empty match or a failed position). -/
def finditerAux (re : RE) : ℕ → Option Char → List Char → List Caps
  | 0, _, _ => []
  | n + 1, prev, s =>
    match (mrun (reFuel re s) re prev s).head? with
    | some (caps, prevOut, rest) =>
      if rest.length < s.length then caps :: finditerAux re n prevOut rest
      else
        match s with
        | [] => [caps]
        | c :: t => caps :: finditerAux re n (some c) t
    | none =>
      match s with
      | [] => []
      | c :: t => finditerAux re n (some c) t

/-- re.finditer over a whole text. -/
def finditer (re : RE) (s : List Char) : List Caps :=
  finditerAux re (s.length + 1) none s

/-- re.search: the leftmost match, if any. -/
def research (re : RE) (s : List Char) : Option Caps :=
  (finditer re s).head?

/-- match.group(i) as a character list (empty if the group is absent). -/
def grpGet (caps : Caps) (i : ℕ) : List Char :=
  ((caps.find? (fun x => x.1 = i)).map Prod.snd).getD []

/-! ### Pattern building helpers -/

/-- Single literal character. -/
def chRE (c : Char) : RE := RE.cls (fun x => x = c)

/-- Case-sensitive string literal. -/
def slit : List Char → RE
  | [] => RE.eps
  | c :: t => RE.cat (chRE c) (slit t)

/-- String literal pattern. -/
def strRE (s : String) : RE := slit s.data

/-- Case-insensitive string literal (IGNORECASE patterns). -/
def islit : List Char → RE
  | [] => RE.eps
  | c :: t => RE.cat (RE.cls (fun x => lowerChar x = lowerChar c)) (islit t)

/-- Case-insensitive literal pattern. -/
def ilit (s : String) : RE := islit s.data

/-- Right-nested alternation, preserving source order (priority). -/
def alts : List RE → RE
  | [] => RE.cls (fun _ => false)
  | [r] => r
  | r :: t => RE.alt r (alts t)

/-- Concatenation of a pattern list. -/
def rcat : List RE → RE
  | [] => RE.eps
  | [r] => r
  | r :: t => RE.cat r (rcat t)

/-- Greedy option e?. -/
def ropt (r : RE) : RE := RE.alt r RE.eps

/-- Greedy plus e+. -/
def rplus (r : RE) : RE := RE.cat r (RE.star true r)

/-- Exactly n repetitions. -/
def rrep (n : ℕ) (r : RE) : RE := rcat (List.replicate n r)

/-- \s* (greedy). -/
def ws0 : RE := RE.star true (RE.cls pySpace)

/-- \s+ (greedy). -/
def ws1 : RE := rplus (RE.cls pySpace)

/-- \d character. -/
def digitRE : RE := RE.cls Char.isDigit

/-- \d+ (greedy). -/
def digits1 : RE := rplus digitRE

/-- .*? without DOTALL (any character but newline, lazy). -/
def dotLazy : RE := RE.star false (RE.cls (fun c => c ≠ '\n'))

/-- .*? with DOTALL (any character, lazy). -/
def dotAllLazy : RE := RE.star false (RE.cls (fun _ => true))

/-- Numeric value of a digit string (Python int on a \d+ capture). -/
def natOfDigits (l : List Char) : ℕ :=
  l.foldl (fun n c => n * 10 + (c.toNat - 48)) 0

/-! ## Resume experience extraction:
src/extractors/keyword_extractor.py, KeywordExtractor -/

/-- Subpattern (?:years?|yrs?). -/
def yearsRE : RE :=
  alts [rcat [strRE "year", ropt (chRE 's')], rcat [strRE "yr", ropt (chRE 's')]]

/-- Subpattern (?:experience|exp). -/
def expRE : RE := alts [strRE "experience", strRE "exp"]

/-- The four patterns of KeywordExtractor.extract_experience_years, applied
to the lowercased text without flags, in source order. -/
def resumeExperiencePatterns : List RE :=
  [ rcat [RE.grp 1 digits1, ropt (chRE '+'), ws0, yearsRE, dotLazy, expRE],
    rcat [expRE, dotLazy, RE.grp 1 digits1, ropt (chRE '+'), ws0, yearsRE],
    rcat [strRE "over", ws1, RE.grp 1 digits1, ws1, yearsRE],
    rcat [strRE "more", ws1, strRE "than", ws1, RE.grp 1 digits1, ws1, yearsRE] ]

/-- Character class [-–] of the date-range patterns. -/
def dashRE : RE := RE.cls (fun c => c = '-' || c = '–')

/-- Subpattern \d{1,2}/\d{4}. -/
def mmyyyyRE : RE := rcat [digitRE, ropt digitRE, chRE '/', rrep 4 digitRE]

/-- The two date-range patterns of
KeywordExtractor._calculate_experience_from_dates (IGNORECASE). -/
def datePatterns : List RE :=
  [ rcat [RE.grp 1 (rrep 4 digitRE), ws0, dashRE, ws0,
          RE.grp 2 (alts [rrep 4 digitRE, ilit "present", ilit "current"])],
    rcat [RE.grp 1 mmyyyyRE, ws0, dashRE, ws0,
          RE.grp 2 (alts [mmyyyyRE, ilit "present", ilit "current"])] ]

/-- First run of four consecutive digits, as a number
(re.search of \d{4} followed by int). -/
def firstYear4 : List Char → Option ℕ
  | [] => none
  | c :: t =>
    if (((c :: t).take 4).length = 4 && ((c :: t).take 4).all Char.isDigit)
    then some (natOfDigits ((c :: t).take 4))
    else firstYear4 t

/-- Contribution of one date-range match: span end − start clamped at 0,
counted only when strictly between 0 and 30 years; present/current stand
for the fixed reference year 2026. -/
def dateSpan (caps : Caps) : ℕ :=
  match firstYear4 (grpGet caps 1) with
  | none => 0
  | some startYear =>
    let endRaw := grpGet caps 2
    let endYear? : Option ℕ :=
      if lowerList endRaw = "present".data || lowerList endRaw = "current".data
      then some 2026 else firstYear4 endRaw
    match endYear? with
    | none => 0
    | some endYear =>
      let years : ℤ := max 0 ((endYear : ℤ) - (startYear : ℤ))
      if 0 < years && years < 30 then years.toNat else 0

/-- KeywordExtractor._calculate_experience_from_dates: sum the per-range
spans over all matches of both date patterns on the raw text. -/
def calcExperienceFromDates (text : List Char) : ℕ :=
  (datePatterns.flatMap (fun pat => (finditer pat text).map dateSpan)).sum

/-- The year values the phrase patterns find in the lowercased text,
keeping only values strictly between 0 and 50, in scan order. -/
def resumePhraseYears (textLower : List Char) : List ℕ :=
  resumeExperiencePatterns.flatMap (fun pat =>
    ((finditer pat textLower).map (fun caps => natOfDigits (grpGet caps 1))).filter
      (fun y => 0 < y && y < 50))

/-- KeywordExtractor.extract_experience_years. -/
def extractExperienceYears (text : List Char) : ℕ :=
  let textLower := lowerList text
  let years := resumePhraseYears textLower
  let dateYears := calcExperienceFromDates text
  let allYears := if dateYears ≠ 0 then years ++ [dateYears] else years
  match allYears with
  | [] => 0
  | y :: t => t.foldl max y

/-! ## Job-description parser: src/parsers/jd_parser.py, JDParser -/

/-- JDParser.required_keywords, in source order. -/
def requiredKeywordsJD : List String :=
  [ "required", "must have", "mandatory", "essential",
    "required skills", "requirements", "must possess",
    "key requirements", "core skills", "minimum qualifications",
    "basic qualifications", "what you need", "what we need",
    "you must have", "you should have", "necessary skills",
    "technical requirements", "hard requirements", "non-negotiable",
    "qualifications required", "skills required", "expected skills",
    "we are looking for", "we expect", "you will need" ]

/-- JDParser.preferred_keywords, in source order. -/
def preferredKeywordsJD : List String :=
  [ "preferred", "nice to have", "desired", "plus",
    "preferred skills", "bonus", "advantage", "good to have",
    "additional skills", "preferred qualifications", "a plus",
    "ideal candidate", "would be nice", "beneficial",
    "extra credit", "not required but", "optional",
    "added advantage", "brownie points", "icing on the cake",
    "it would be great if", "even better if", "extra skills" ]

/-- JDParser.experience_patterns (IGNORECASE), in source order. -/
def jdExperiencePatterns : List RE :=
  [ rcat [RE.grp 1 digits1, ropt (chRE '+'), ws0, yearsRE, dotLazy, expRE],
    rcat [expRE, dotLazy, RE.grp 1 digits1, ropt (chRE '+'), ws0, yearsRE],
    rcat [ilit "minimum", ws1, RE.grp 1 digits1, ws1, yearsRE],
    rcat [ilit "at", ws1, ilit "least", ws1, RE.grp 1 digits1, ws1, yearsRE],
    rcat [RE.grp 1 digits1, ws0, chRE '-', ws0, digits1, ws0, yearsRE],
    rcat [RE.grp 1 digits1, ws0, ilit "to", ws0, digits1, ws0, yearsRE],
    rcat [ilit "over", ws1, RE.grp 1 digits1, ws1, yearsRE],
    rcat [ilit "more", ws1, ilit "than", ws1, RE.grp 1 digits1, ws1, yearsRE],
    rcat [RE.grp 1 digits1, chRE '+', ws0, yearsRE],
    rcat [ilit "around", ws1, RE.grp 1 digits1, ws1, yearsRE] ]

/-- The year values matched by the JD experience patterns, in scan order
(JDParser._extract_experience collects them with no sanity bound). -/
def jdYears (textLower : List Char) : List ℕ :=
  jdExperiencePatterns.flatMap (fun pat =>
    (finditer pat textLower).map (fun caps => natOfDigits (grpGet caps 1)))

/-- JDParser._extract_experience: the minimum matched value, 0 if none. -/
def jdExtractExperience (textLower : List Char) : ℕ :=
  match jdYears textLower with
  | [] => 0
  | y :: t => t.foldl min y

/-- The section pattern {keyword}[:\s]+(.*?)(?=stop1|stop2|...|$) built by
JDParser._split_sections (IGNORECASE and DOTALL). -/
def sectionPattern (kw : String) (stops : List String) : RE :=
  rcat [ilit kw, rplus (RE.cls (fun c => c = ':' || pySpace c)),
        RE.grp 1 dotAllLazy, RE.la (alts (stops.map ilit ++ [RE.eos]))]

/-- JDParser._split_sections: concatenate the capture of each heading
keyword's first match (plus a space), then strip both accumulators. -/
def splitSections (textLower : List Char) : List Char × List Char :=
  let requiredText := requiredKeywordsJD.foldl (fun acc kw =>
    match research (sectionPattern kw preferredKeywordsJD) textLower with
    | some caps => acc ++ grpGet caps 1 ++ [' ']
    | none => acc) []
  let preferredText := preferredKeywordsJD.foldl (fun acc kw =>
    match research (sectionPattern kw requiredKeywordsJD) textLower with
    | some caps => acc ++ grpGet caps 1 ++ [' ']
    | none => acc) []
  (pyStrip requiredText, pyStrip preferredText)

/-! ### JD skill patterns (JDParser._extract_skills, IGNORECASE)

Helpers compile the escapes of the source patterns: li is a literal, iws
joins two literals with \s*, iws3 three, idot inserts \.?, iopt a trailing
optional character.  Every pattern is \b( alternation )\b with group 1 the
alternation, alternatives in source order. -/

/-- A case-insensitive literal alternative. -/
def li (s : String) : RE := ilit s

/-- Alternative a\s*b. -/
def iws (a b : String) : RE := rcat [ilit a, ws0, ilit b]

/-- Alternative a\s*b\s*c. -/
def iws3 (a b c : String) : RE := rcat [ilit a, ws0, ilit b, ws0, ilit c]

/-- Alternative a\.?b. -/
def idot (a b : String) : RE := rcat [ilit a, ropt (chRE '.'), ilit b]

/-- Alternative with a trailing optional character, such as html5?. -/
def iopt (a : String) (c : Char) : RE := rcat [ilit a, ropt (chRE c)]

/-- \b( alternatives )\b. -/
def skillPat (xs : List RE) : RE := rcat [RE.bnd, RE.grp 1 (alts xs), RE.bnd]

/-- JDParser.skill_patterns, transcribed pattern by pattern in source
order (programming languages, Java ecosystem, Python ecosystem, frontend,
backend, databases, SQL family, cloud platforms, AWS services, DevOps,
web technologies, message queues, testing, collaboration, methodologies,
data and analytics, mobile, security, monitoring, version control,
architecture patterns). -/
def jdSkillPatterns : List RE :=
  [ skillPat [li "java", li "python", li "javascript", li "typescript", li "c++",
      li "c#", li "c", li "ruby", li "php", li "go", li "golang", li "rust",
      li "swift", li "kotlin", li "scala", li "perl", li "r", li "matlab",
      li "vba", li "bash", li "shell", li "powershell"],
    skillPat [li "spring", iws "spring" "boot", iws "spring" "mvc",
      iws "spring" "cloud", li "hibernate", li "jpa", li "jdbc", li "j2ee",
      li "jee", iws "java" "ee", li "servlets", li "jsp", li "jsf", li "struts",
      li "maven", li "gradle", li "tomcat", li "jboss", li "wildfly",
      li "weblogic", li "websphere"],
    skillPat [li "django", li "flask", li "fastapi", li "pandas", li "numpy",
      li "scipy", li "tensorflow", li "pytorch", li "keras", li "scikit-learn",
      li "sklearn", li "celery", li "asyncio"],
    skillPat [li "react", idot "react" "js", li "angular", idot "angular" "js",
      li "vue", idot "vue" "js", idot "next" "js", li "nuxt", li "svelte",
      li "ember", li "backbone", li "jquery", li "redux", li "mobx",
      li "webpack", li "babel", li "vite", li "npm", li "yarn", li "pnpm"],
    skillPat [idot "node" "js", idot "express" "js", li "express", li "nestjs",
      idot "nest" "js", li "asp.net", li ".net", iws ".net" "core", li "rails",
      iws3 "ruby" "on" "rails", li "laravel", li "symfony", li "codeigniter",
      li "gin", li "echo", li "fiber"],
    skillPat [li "mysql", li "postgresql", li "postgres", li "mongodb",
      li "mongo", li "oracle", iws "sql" "server", li "mssql", li "sqlite",
      li "redis", li "cassandra", li "dynamodb", li "couchdb", li "mariadb",
      li "neo4j", li "elasticsearch", li "elastic"],
    skillPat [li "sql", li "nosql", li "plsql", li "pl/sql", li "t-sql",
      li "rdbms", li "database"],
    skillPat [li "aws", iws3 "amazon" "web" "services", li "azure",
      iws "microsoft" "azure", li "gcp", iws "google" "cloud", li "cloud",
      li "heroku", li "digitalocean", li "linode", li "vercel", li "netlify"],
    skillPat [li "ec2", li "s3", li "lambda", li "rds", li "dynamodb", li "sqs",
      li "sns", li "cloudfront", li "cloudwatch", li "ecs", li "eks",
      li "fargate", iws "api" "gateway", li "cognito", li "iam"],
    skillPat [li "docker", li "kubernetes", li "k8s", li "jenkins", li "git",
      li "github", li "gitlab", li "bitbucket", li "ci/cd", li "cicd",
      li "terraform", li "ansible", li "puppet", li "chef", li "vagrant",
      li "helm", li "argocd"],
    skillPat [iopt "html" '5', iopt "css" '3', li "sass", li "scss", li "less",
      li "tailwind", li "bootstrap", li "xml", li "json", li "yaml", li "rest",
      li "restful", li "soap", li "graphql", li "api", li "apis",
      li "microservices", li "micro-services"],
    skillPat [li "kafka", li "rabbitmq", li "activemq", li "sqs", li "redis",
      li "celery", li "zeromq", li "pulsar"],
    skillPat [li "junit", li "testng", li "mockito", li "jest", li "mocha",
      li "chai", li "cypress", li "selenium", li "pytest", li "unittest",
      li "rspec", li "jasmine", li "karma", li "protractor"],
    skillPat [li "jira", li "confluence", li "trello", li "asana", li "slack",
      li "teams", li "notion", li "monday"],
    skillPat [li "agile", li "scrum", li "kanban", li "waterfall", li "tdd",
      li "bdd", li "ddd", li "lean", li "xp", iws "extreme" "programming",
      li "devops", li "devsecops"],
    skillPat [li "hadoop", li "spark", li "hive", li "pig", li "airflow",
      li "etl", iws "data" "warehouse", li "snowflake", li "redshift",
      li "bigquery", li "tableau", iws "power" "bi", li "looker"],
    skillPat [li "android", li "ios", iws "react" "native", li "flutter",
      li "xamarin", li "ionic", li "swift", li "objective-c", li "kotlin"],
    skillPat [li "oauth", li "jwt", li "ssl", li "tls", li "https",
      li "encryption", li "security", li "owasp", li "penetration",
      li "vulnerability"],
    skillPat [li "prometheus", li "grafana", li "elk", li "splunk",
      li "datadog", li "newrelic", li "dynatrace", li "logstash", li "kibana"],
    skillPat [li "git", li "svn", li "subversion", li "mercurial", li "github",
      li "gitlab", li "bitbucket"],
    skillPat [li "mvc", li "mvvm", li "mvp", iws "clean" "architecture",
      li "hexagonal", li "cqrs", iws "event" "sourcing", li "saga",
      iws "domain" "driven"] ]

/-- JDParser._normalize_skill lookup table. -/
def normalizeSkillTable : List (String × String) :=
  [ ("react.js", "react"), ("reactjs", "react"),
    ("vue.js", "vue"), ("vuejs", "vue"),
    ("node.js", "nodejs"), ("express.js", "express"),
    ("next.js", "nextjs"),
    ("angular.js", "angular"), ("angularjs", "angular"),
    ("nest.js", "nestjs"),
    ("golang", "go"),
    ("postgres", "postgresql"), ("mongo", "mongodb"),
    ("k8s", "kubernetes"),
    ("amazon web services", "aws"), ("microsoft azure", "azure"),
    ("google cloud", "gcp"),
    ("pl/sql", "plsql"), ("mssql", "sql server") ]

/-- JDParser._normalize_skill: lowercase, strip, then remap variants. -/
def normalizeSkill (skill : String) : String :=
  let s : String := ⟨pyStrip (lowerList skill.data)⟩
  ((normalizeSkillTable.find? (fun x => x.1 = s)).map Prod.snd).getD s

/-- JDParser._extract_skills: every group-1 capture of every skill
pattern, stripped, dropped if empty, then normalized, as a set. -/
def extractSkillsJD (text : List Char) : Finset String :=
  (jdSkillPatterns.flatMap (fun pat =>
    (finditer pat text).filterMap (fun caps =>
      let skill := pyStrip (grpGet caps 1)
      if skill = [] then none else some (normalizeSkill ⟨skill⟩)))).toFinset

/-! ### JD keyword extraction (JDParser._extract_keywords) -/

/-- The capitalized-phrase pattern \b([A-Z][a-z]+(?:\s+[A-Z][a-z]+)*)\b,
compiled WITHOUT IGNORECASE (the source passes only re.MULTILINE). -/
def capPattern : RE :=
  let word := rcat [RE.cls isAsciiUpper,
    rplus (RE.cls (fun c => 'a' ≤ c && c ≤ 'z'))]
  rcat [RE.bnd, RE.grp 1 (rcat [word, RE.star true (rcat [ws1, word])]), RE.bnd]

/-- The version pattern \b([a-z]+\s*\d+(?:\.\d+)?)\b with IGNORECASE. -/
def versionPattern : RE :=
  rcat [RE.bnd,
    RE.grp 1 (rcat [rplus (RE.cls (fun c => 'a' ≤ lowerChar c && lowerChar c ≤ 'z')),
      ws0, digits1, ropt (rcat [chRE '.', digits1])]),
    RE.bnd]

/-- Common words filtered out of capitalized-phrase keywords. -/
def keywordStopWords : List String := ["the", "and", "for", "with", "this", "that"]

/-- JDParser._extract_keywords: capitalized phrases (lowercased, common
words dropped) plus version-tagged tokens (lowercased), as a set. -/
def jdExtractKeywords (text : List Char) : Finset String :=
  let capKeywords := ((finditer capPattern text).map (fun caps => grpGet caps 1)).filterMap
    (fun w => if (⟨lowerList w⟩ : String) ∈ keywordStopWords then none
      else some (⟨lowerList w⟩ : String))
  let versionKeywords := (finditer versionPattern text).map
    (fun caps => (⟨lowerList (grpGet caps 1)⟩ : String))
  (capKeywords ++ versionKeywords).toFinset

/-! ### JDParser.parse_text -/

/-- The dictionary returned by JDParser.parse_text. -/
structure JDParsed where
  text : List Char
  min_experience : ℕ
  required_skills : Finset String
  preferred_skills : Finset String
  keywords : Finset String

/-- JDParser.parse_text: lowercase, extract the experience requirement,
split into sections, extract skills per section, fall back to whole-text
extraction into required when both sections yield nothing, and extract
general keywords — all applied to the lowercased text. -/
def parseText (text : List Char) : JDParsed :=
  let textLower := lowerList text
  let minExperience := jdExtractExperience textLower
  let sections := splitSections textLower
  let requiredSkills0 := extractSkillsJD sections.1
  let preferredSkills := extractSkillsJD sections.2
  let requiredSkills :=
    if requiredSkills0 = ∅ ∧ preferredSkills = ∅ then extractSkillsJD textLower
    else requiredSkills0
  { text := text
    min_experience := minExperience
    required_skills := requiredSkills
    preferred_skills := preferredSkills
    keywords := jdExtractKeywords textLower }

/-! ## Theorems -/

/-- The experience-match formula exactly as the specification words it,
with the tolerance-band condition stated as a two-sided window. -/
def specExperienceMatch (tolerance hv nd : ℕ) : ℚ :=
  if nd = 0 then 1
  else if nd ≤ hv then 1
  else if (nd : ℤ) - (tolerance : ℤ) ≤ (hv : ℤ) ∧ hv < nd then
    max (7/10) (1 - ((nd - hv : ℕ) : ℚ) / ((tolerance : ℚ) + 1) * (3/10))
  else max 0 ((hv : ℚ) / (nd : ℚ) * (7/10))

/-- C1: the experience-match component is the exact two-regime piecewise
function of (have, need) stated by the spec — full credit when need = 0 or
have ≥ need, the soft tolerance-band penalty max(0.7, 1 − (need−have)/
(tolerance+1)·0.3) inside the band, and the proportional max(0, have/need·0.7)
below it — and at tolerance 2, need 5 it takes value 1 at have 5, a value in
[0.7, 1) at have 4 and at have 3, 0.28 at have 2 and 0 at have 0. -/
theorem claim_C1_experience_piecewise :
    (∀ tolerance hv nd : ℕ,
      calcExperienceMatch tolerance hv nd = specExperienceMatch tolerance hv nd) ∧
    calcExperienceMatch 2 5 5 = 1 ∧
    (7/10 ≤ calcExperienceMatch 2 4 5 ∧ calcExperienceMatch 2 4 5 < 1) ∧
    (7/10 ≤ calcExperienceMatch 2 3 5 ∧ calcExperienceMatch 2 3 5 < 1) ∧
    calcExperienceMatch 2 2 5 = 0.28 ∧
    calcExperienceMatch 2 0 5 = 0 := by
  have e45 : calcExperienceMatch 2 4 5 = 9/10 := by
    simp only [calcExperienceMatch]; norm_num [max_def]
  have e35 : calcExperienceMatch 2 3 5 = 4/5 := by
    simp only [calcExperienceMatch]; norm_num [max_def]
  have e25 : calcExperienceMatch 2 2 5 = 28/100 := by
    simp only [calcExperienceMatch]; norm_num [max_def]
  have e05 : calcExperienceMatch 2 0 5 = 0 := by
    simp only [calcExperienceMatch]; norm_num [max_def]
  refine ⟨fun tolerance hv nd => ?_,
    by simp only [calcExperienceMatch]; norm_num,
    ⟨by rw [e45]; norm_num, by rw [e45]; norm_num⟩,
    ⟨by rw [e35]; norm_num, by rw [e35]; norm_num⟩,
    by rw [e25]; norm_num, e05⟩
  unfold calcExperienceMatch specExperienceMatch
  split_ifs <;> first | rfl | omega

/-- C2: the skill-match component gives full credit on an empty need set
and the matched fraction |have ∩ need| / |need| otherwise; score_resume
applies this one function to the (lowercased) required and preferred JD
skill lists, so an empty required list forces a 100.0 required score, and
likewise for preferred. -/
theorem claim_C2_skill_match :
    (∀ hv nd : Finset String,
      (nd = ∅ → calcSkillMatch hv nd = 1) ∧
      (nd ≠ ∅ → calcSkillMatch hv nd = ((hv ∩ nd).card : ℚ) / (nd.card : ℚ))) ∧
    (∀ (w : Weights) (tolerance : ℕ) (rs : Finset String) (rexp : ℕ)
        (rkw : List String) (jd : JDInput),
      (scoreResume w tolerance rs rexp rkw jd).required_skills_score =
        pyRound2 (calcSkillMatch rs ((jd.required_skills.map lowerStr).toFinset) * 100) ∧
      (scoreResume w tolerance rs rexp rkw jd).preferred_skills_score =
        pyRound2 (calcSkillMatch rs ((jd.preferred_skills.map lowerStr).toFinset) * 100) ∧
      (jd.required_skills = [] →
        (scoreResume w tolerance rs rexp rkw jd).required_skills_score = 100) ∧
      (jd.preferred_skills = [] →
        (scoreResume w tolerance rs rexp rkw jd).preferred_skills_score = 100)) := by
  constructor
  · intro hv nd
    constructor
    · intro h; simp [calcSkillMatch, h]
    · intro h; simp [calcSkillMatch, h]
  · intro w tolerance rs rexp rkw jd
    have hfull : pyRound2 ((1 : ℚ) * 100) = 100 := by
      norm_num [pyRound2, roundHalfEven]
    refine ⟨rfl, rfl, fun h => ?_, fun h => ?_⟩
    · have e : (scoreResume w tolerance rs rexp rkw jd).required_skills_score =
          pyRound2 (calcSkillMatch rs ((jd.required_skills.map lowerStr).toFinset) * 100) := rfl
      rw [e, h]
      simpa [calcSkillMatch] using hfull
    · have e : (scoreResume w tolerance rs rexp rkw jd).preferred_skills_score =
          pyRound2 (calcSkillMatch rs ((jd.preferred_skills.map lowerStr).toFinset) * 100) := rfl
      rw [e, h]
      simpa [calcSkillMatch] using hfull

/-- Witness for C2 at concrete inputs: an empty need set scores 1, a
half-covered nonempty one scores 1/2, and empty JD skill lists force
100.0 reported component scores. -/
theorem claim_C2_skill_match_witness :
    calcSkillMatch {"java"} ∅ = 1 ∧
    calcSkillMatch {"java"} ({"java", "python"} : Finset String) =
      ((({"java"} : Finset String) ∩ ({"java", "python"} : Finset String)).card : ℚ) /
        ((({"java", "python"} : Finset String)).card : ℚ) ∧
    (scoreResume defaultWeights 2 {"java"} 0 [] ⟨[], [], [], 0⟩).required_skills_score = 100 ∧
    (scoreResume defaultWeights 2 {"java"} 0 [] ⟨[], [], [], 0⟩).preferred_skills_score = 100 :=
  ⟨(claim_C2_skill_match.1 {"java"} ∅).1 rfl,
   (claim_C2_skill_match.1 {"java"} {"java", "python"}).2 (by decide),
   (claim_C2_skill_match.2 defaultWeights 2 {"java"} 0 [] ⟨[], [], [], 0⟩).2.2.1 rfl,
   (claim_C2_skill_match.2 defaultWeights 2 {"java"} 0 [] ⟨[], [], [], 0⟩).2.2.2 rfl⟩

/-- C3: the keyword-match component is 1 on an empty JD keyword list and
otherwise min(1, matchRatio + bonus) with matchRatio the covered fraction
of the distinct lowercased JD keyword set and bonus the frequency bonus
min(0.2, matching-occurrence share), 0 for an empty resume keyword list;
consequently the component never exceeds 1. -/
theorem claim_C3_keyword_cap :
    (∀ resumeKeywords jdKeywords : List String,
      calcKeywordMatch resumeKeywords jdKeywords =
        if jdKeywords = [] then 1
        else
          min 1 ((((resumeKeywords.map lowerStr).toFinset ∩
              (jdKeywords.map lowerStr).toFinset).card : ℚ) /
              (((jdKeywords.map lowerStr).toFinset).card : ℚ) +
            if resumeKeywords = [] then 0
            else min (2/10)
              ((resumeKeywords.countP
                  (fun kw => lowerStr kw ∈ (jdKeywords.map lowerStr).toFinset) : ℚ) /
                (resumeKeywords.length : ℚ)))) ∧
    (∀ resumeKeywords jdKeywords : List String,
      calcKeywordMatch resumeKeywords jdKeywords ≤ 1) := by
  have key : ∀ resumeKeywords jdKeywords : List String, jdKeywords ≠ [] →
      ((jdKeywords.map lowerStr).toFinset ≠ ∅) := by
    intro rk jk h hset
    exact h (List.map_eq_nil_iff.mp (List.toFinset_eq_empty_iff _ |>.mp hset))
  have hform : ∀ resumeKeywords jdKeywords : List String,
      calcKeywordMatch resumeKeywords jdKeywords =
        if jdKeywords = [] then 1
        else
          min 1 ((((resumeKeywords.map lowerStr).toFinset ∩
              (jdKeywords.map lowerStr).toFinset).card : ℚ) /
              (((jdKeywords.map lowerStr).toFinset).card : ℚ) +
            if resumeKeywords = [] then 0
            else min (2/10)
              ((resumeKeywords.countP
                  (fun kw => lowerStr kw ∈ (jdKeywords.map lowerStr).toFinset) : ℚ) /
                (resumeKeywords.length : ℚ))) := by
    intro rk jk
    by_cases hjk : jk = []
    · simp [calcKeywordMatch, hjk]
    · by_cases hrk : rk = [] <;>
        simp [calcKeywordMatch, hjk, hrk, key rk jk hjk]
  refine ⟨hform, fun rk jk => ?_⟩
  rw [hform rk jk]
  split_ifs
  · exact le_refl 1
  · exact min_le_left _ _
  · exact min_le_left _ _

/-- C4: score_resume's total_score is the weighted sum of the four
component scores (with the configured weights) times 100 rounded to two
decimals, each component is reported times 100 rounded to two decimals,
and the default weights are 0.50 / 0.25 / 0.15 / 0.10. -/
theorem claim_C4_weighted_total :
    (∀ (w : Weights) (tolerance : ℕ) (rs : Finset String) (rexp : ℕ)
        (rkw : List String) (jd : JDInput),
      (scoreResume w tolerance rs rexp rkw jd).total_score =
        pyRound2 ((calcSkillMatch rs ((jd.required_skills.map lowerStr).toFinset) *
            w.required_skills +
          calcSkillMatch rs ((jd.preferred_skills.map lowerStr).toFinset) *
            w.preferred_skills +
          calcExperienceMatch tolerance rexp jd.min_experience * w.experience +
          calcKeywordMatch rkw jd.keywords * w.keyword_density) * 100) ∧
      (scoreResume w tolerance rs rexp rkw jd).required_skills_score =
        pyRound2 (calcSkillMatch rs ((jd.required_skills.map lowerStr).toFinset) * 100) ∧
      (scoreResume w tolerance rs rexp rkw jd).preferred_skills_score =
        pyRound2 (calcSkillMatch rs ((jd.preferred_skills.map lowerStr).toFinset) * 100) ∧
      (scoreResume w tolerance rs rexp rkw jd).experience_score =
        pyRound2 (calcExperienceMatch tolerance rexp jd.min_experience * 100) ∧
      (scoreResume w tolerance rs rexp rkw jd).keyword_score =
        pyRound2 (calcKeywordMatch rkw jd.keywords * 100)) ∧
    defaultWeights.required_skills = 0.50 ∧
    defaultWeights.preferred_skills = 0.25 ∧
    defaultWeights.experience = 0.15 ∧
    defaultWeights.keyword_density = 0.10 :=
  ⟨fun _ _ _ _ _ _ => ⟨rfl, rfl, rfl, rfl, rfl⟩, rfl, rfl, rfl, rfl⟩

/-! ### Helpers for list maxima and minima -/

/-- Folding max from an accumulator equals max of the accumulator and the
fold from 0. -/
lemma foldl_max_eq_max_foldr (t : List ℕ) : ∀ y : ℕ,
    t.foldl max y = max y (t.foldr max 0) := by
  induction t with
  | nil => intro y; simp
  | cons b t ih =>
    intro y
    simp only [List.foldl_cons, List.foldr_cons, ih (max y b)]
    rw [max_assoc]

/-- foldr max distributes over append. -/
lemma foldr_max_append (l₁ l₂ : List ℕ) :
    (l₁ ++ l₂).foldr max 0 = max (l₁.foldr max 0) (l₂.foldr max 0) := by
  induction l₁ with
  | nil => simp
  | cons b t ih => simp only [List.cons_append, List.foldr_cons, ih]; rw [max_assoc]

/-- Folding min from an accumulator lands on the accumulator or a list
element. -/
lemma foldl_min_mem (t : List ℕ) : ∀ y : ℕ, t.foldl min y = y ∨ t.foldl min y ∈ t := by
  induction t with
  | nil => intro y; simp
  | cons b t ih =>
    intro y
    rcases ih (min y b) with h | h
    · rcases min_cases y b with ⟨e, _⟩ | ⟨e, _⟩
      · left; rw [List.foldl_cons, h, e]
      · right; rw [List.foldl_cons, h, e]; exact List.mem_cons_self b t
    · right; exact List.mem_cons_of_mem b h

/-- Folding min never exceeds the accumulator. -/
lemma foldl_min_le_init (t : List ℕ) : ∀ y : ℕ, t.foldl min y ≤ y := by
  induction t with
  | nil => intro y; simp
  | cons b t ih =>
    intro y
    exact le_trans (ih (min y b)) (min_le_left y b)

/-- Folding min never exceeds any list element. -/
lemma foldl_min_le_mem (t : List ℕ) : ∀ (y z : ℕ), z ∈ t → t.foldl min y ≤ z := by
  induction t with
  | nil => intro y z hz; cases hz
  | cons b t ih =>
    intro y z hz
    rcases List.mem_cons.mp hz with rfl | hz
    · exact le_trans (foldl_min_le_init t (min y z)) (min_le_right y z)
    · exact ih (min y b) z hz

/-- C6: extract_experience_years is the maximum of the two strategies —
the largest phrase-pattern year (values bounded to (0,50)) and the summed
date-range estimate (spans bounded to (0,30), present/current fixed) —
and 0 when both strategies yield nothing; never their sum. -/
theorem claim_C6_experience_max (text : List Char) :
    extractExperienceYears text =
      max ((resumePhraseYears (lowerList text)).foldr max 0)
        (calcExperienceFromDates text) := by
  unfold extractExperienceYears
  by_cases hd : calcExperienceFromDates text = 0
  · simp only [hd, ne_eq, not_true_eq_false, if_false]
    cases hy : resumePhraseYears (lowerList text) with
    | nil => simp
    | cons y t =>
      simp only [List.foldr_cons]
      rw [foldl_max_eq_max_foldr t y, Nat.max_zero]
  · simp only [ne_eq, hd, not_false_eq_true, if_true]
    cases hy : resumePhraseYears (lowerList text) with
    | nil => simp
    | cons y t =>
      simp only [List.cons_append, List.foldr_cons]
      rw [foldl_max_eq_max_foldr (t ++ [calcExperienceFromDates text]) y,
        foldr_max_append, max_assoc]
      simp

/-- C7: the JD-side minimum-experience requirement reported by parse_text
is the minimum of all year values matched by the ten JD experience
patterns, and 0 when no pattern matches — the dual of the resume side's
maximum. -/
theorem claim_C7_min_experience (text : List Char) :
    (parseText text).min_experience = jdExtractExperience (lowerList text) ∧
    (jdYears (lowerList text) = [] → (parseText text).min_experience = 0) ∧
    (jdYears (lowerList text) ≠ [] →
      (parseText text).min_experience ∈ jdYears (lowerList text) ∧
      ∀ y ∈ jdYears (lowerList text), (parseText text).min_experience ≤ y) := by
  have e : (parseText text).min_experience = jdExtractExperience (lowerList text) := rfl
  refine ⟨e, fun h => ?_, fun h => ?_⟩
  · rw [e]; unfold jdExtractExperience; rw [h]
  · rw [e]
    unfold jdExtractExperience
    cases hy : jdYears (lowerList text) with
    | nil => exact absurd hy h
    | cons y t =>
      constructor
      · show List.foldl min y t ∈ y :: t
        rcases foldl_min_mem t y with hm | hm
        · rw [hm]; exact List.mem_cons_self y t
        · exact List.mem_cons_of_mem y hm
      · intro z hz
        show List.foldl min y t ≤ z
        rcases List.mem_cons.mp hz with rfl | hz
        · exact foldl_min_le_init t z
        · exact foldl_min_le_mem t y z hz

/-- C5: if skill extraction over the detected required section and the
detected preferred section both yield nothing, parse_text re-runs skill
extraction over the entire (lowercased) text and assigns the whole result
to required_skills while preferred_skills stays empty. -/
theorem claim_C5_section_fallback (text : List Char)
    (hreq : extractSkillsJD (splitSections (lowerList text)).1 = ∅)
    (hpref : extractSkillsJD (splitSections (lowerList text)).2 = ∅) :
    (parseText text).required_skills = extractSkillsJD (lowerList text) ∧
    (parseText text).preferred_skills = ∅ := by
  unfold parseText
  simp only [hreq, hpref, and_self, if_true]

/-- Witness for C5: the heading-free text "java" has empty detected
sections, so its single skill lands in required_skills and
preferred_skills is empty. -/
theorem claim_C5_section_fallback_witness :
    (parseText "java".data).required_skills = extractSkillsJD (lowerList "java".data) ∧
    (parseText "java".data).preferred_skills = ∅ :=
  claim_C5_section_fallback "java".data (by decide) (by decide)

/-! ### Ranking lemmas (C8) -/

instance : IsTotal RankedEntry rankRel :=
  ⟨fun a b => le_total b.score.total_score a.score.total_score⟩

instance : IsTrans RankedEntry rankRel :=
  ⟨fun _ _ _ h₁ h₂ => le_trans h₂ h₁⟩

/-- Filtering for a fixed score value commutes with ordered insertion:
the inserted element lands in front of its score class because every
element skipped on the way in has a strictly larger score. -/
lemma filter_orderedInsert_rank (q : ℚ) (a : RankedEntry) (m : List RankedEntry) :
    (List.orderedInsert rankRel a m).filter (fun e => decide (e.score.total_score = q)) =
      if a.score.total_score = q
      then a :: m.filter (fun e => decide (e.score.total_score = q))
      else m.filter (fun e => decide (e.score.total_score = q)) := by
  induction m with
  | nil =>
    by_cases h : a.score.total_score = q <;>
      simp [List.orderedInsert, List.filter_cons, h]
  | cons b t ih =>
    rw [List.orderedInsert]
    by_cases hr : rankRel a b
    · rw [if_pos hr]
      by_cases h : a.score.total_score = q <;> simp [List.filter_cons, h]
    · rw [if_neg hr]
      have hb : a.score.total_score < b.score.total_score := lt_of_not_le hr
      by_cases h : a.score.total_score = q
      · have hbq : ¬ b.score.total_score = q := by
          intro e
          rw [h, e] at hb
          exact lt_irrefl q hb
        simp [List.filter_cons, hbq, ih, h]
      · by_cases hbq : b.score.total_score = q <;>
          simp [List.filter_cons, hbq, ih, h]

/-- C8: rank_resumes returns the scored list sorted in descending order
of total_score, entries with equal total_score keep their relative input
order (stability, phrased per score class), and the output is a
permutation of the input. -/
theorem claim_C8_rank_stable_desc (l : List RankedEntry) :
    (rankResumes l).Sorted rankRel ∧
    (∀ q : ℚ, (rankResumes l).filter (fun e => decide (e.score.total_score = q)) =
      l.filter (fun e => decide (e.score.total_score = q))) ∧
    (rankResumes l).Perm l := by
  refine ⟨List.sorted_insertionSort rankRel l, fun q => ?_,
    List.perm_insertionSort rankRel l⟩
  induction l with
  | nil => rfl
  | cons a t ih =>
    show (List.orderedInsert rankRel a (rankResumes t)).filter _ = _
    rw [filter_orderedInsert_rank]
    by_cases h : a.score.total_score = q <;> simp [List.filter_cons, h, ih]

/-- C9 (code bug): parse_text lowercases the text before its general
keyword extraction, so the capitalized-phrase branch of _extract_keywords
can never fire there — on the raw text the extractor does produce
"spring boot", but parse_text returns no keywords at all for the text
"Spring Boot" — while version-tagged tokens such as "java 11" survive
lowercasing and are returned. -/
theorem claim_C9_keyword_case_bug :
    "spring boot" ∈ jdExtractKeywords "Spring Boot".data ∧
    (parseText "Spring Boot".data).keywords = ∅ ∧
    "spring boot" ∉ (parseText "Spring Boot".data).keywords ∧
    "java 11" ∈ (parseText "Java 11".data).keywords := by
  refine ⟨by decide, by decide, ?_, by decide⟩
  intro hmem
  have h : (parseText "Spring Boot".data).keywords = ∅ := by decide
  rw [h] at hmem
  exact absurd hmem (Finset.not_mem_empty _)

/-! ### Case-sensitivity lemmas (C10) -/

/-- Lowercasing a character never yields an ASCII uppercase letter. -/
lemma lowerChar_not_upper (c : Char) : isAsciiUpper (lowerChar c) = false := by
  unfold lowerChar
  by_cases h : isAsciiUpper c = true
  · rw [if_pos h]
    unfold isAsciiUpper at h ⊢
    rw [Bool.and_eq_true] at h
    obtain ⟨h₁, h₂⟩ := h
    rw [decide_eq_true_iff] at h₁ h₂
    have n₁ : 65 ≤ c.toNat := by
      have := Char.le_def.mp h₁
      simpa [Char.toNat] using this
    have n₂ : c.toNat ≤ 90 := by
      have := Char.le_def.mp h₂
      simpa [Char.toNat] using this
    interval_cases h : c.toNat <;> decide
  · rw [if_neg h]
    simpa using h

/-- No character of a lowercased string is ASCII uppercase. -/
lemma mem_lowerStr_not_upper (j : String) (c : Char) (hc : c ∈ (lowerStr j).data) :
    isAsciiUpper c = false := by
  rcases List.mem_map.mp (show c ∈ j.data.map lowerChar from hc) with ⟨c₀, _, rfl⟩
  exact lowerChar_not_upper c₀

/-- A string containing an ASCII uppercase letter is never the lowercase
image of another string. -/
lemma upper_ne_lowerStr (s j : String) (h : ∃ c ∈ s.data, isAsciiUpper c = true) :
    s ≠ lowerStr j := by
  rintro rfl
  obtain ⟨c, hc, hup⟩ := h
  rw [mem_lowerStr_not_upper j c hc] at hup
  cases hup

/-- C10 counterexample to the claim as stated: with resume skills
{"Java", "java"} and JD required skill "Java", the resume skill "Java"
contains an uppercase letter and equals the JD skill up to case, yet its
lowercase JD counterpart "java" does NOT remain in
missing_required_skills (the lowercase duplicate matched it away). -/
theorem claim_C10_counterexample :
    ("Java" ∈ ({"Java", "java"} : Finset String)) ∧
    (∃ c ∈ "Java".data, isAsciiUpper c = true) ∧
    ("Java" ∈ (["Java"] : List String) ∧ lowerStr "Java" = lowerStr "Java") ∧
    lowerStr "Java" ∉ (scoreResume defaultWeights 2 {"Java", "java"} 0 []
      ⟨["Java"], [], [], 0⟩).missing_required_skills := by
  refine ⟨by decide, ⟨'J', by decide, by decide⟩, ⟨by decide, rfl⟩, by decide⟩

/-- C10 amended: score_resume lowercases the JD skill lists but leaves
the resume skill set verbatim, so a resume skill containing an ASCII
uppercase letter never appears in the lowercased JD sets, hence never in
matched_required_skills or matched_preferred_skills; and a JD skill equal
to it up to case stays in missing_required_skills provided its lowercase
form is not itself a member of the resume skill set. -/
theorem claim_C10_amended (w : Weights) (tolerance : ℕ) (rs : Finset String)
    (rexp : ℕ) (rkw : List String) (jd : JDInput) (s : String) (_hs : s ∈ rs)
    (hup : ∃ c ∈ s.data, isAsciiUpper c = true) :
    s ∉ ((jd.required_skills.map lowerStr).toFinset) ∧
    s ∉ ((jd.preferred_skills.map lowerStr).toFinset) ∧
    s ∉ (scoreResume w tolerance rs rexp rkw jd).matched_required_skills ∧
    s ∉ (scoreResume w tolerance rs rexp rkw jd).matched_preferred_skills ∧
    (∀ j ∈ jd.required_skills, lowerStr j = lowerStr s → lowerStr j ∉ rs →
      lowerStr j ∈ (scoreResume w tolerance rs rexp rkw jd).missing_required_skills) := by
  have hnot : ∀ L : List String, s ∉ (L.map lowerStr).toFinset := by
    intro L hmem
    rcases List.mem_map.mp (List.mem_toFinset.mp hmem) with ⟨j, _, hj⟩
    exact upper_ne_lowerStr s j hup hj.symm
  refine ⟨hnot _, hnot _, ?_, ?_, ?_⟩
  · show s ∉ rs ∩ (jd.required_skills.map lowerStr).toFinset
    intro hmem
    exact hnot _ (Finset.mem_inter.mp hmem).2
  · show s ∉ rs ∩ (jd.preferred_skills.map lowerStr).toFinset
    intro hmem
    exact hnot _ (Finset.mem_inter.mp hmem).2
  · intro j hj _ hnotin
    show lowerStr j ∈ (jd.required_skills.map lowerStr).toFinset \ rs
    exact Finset.mem_sdiff.mpr
      ⟨List.mem_toFinset.mpr (List.mem_map_of_mem lowerStr hj), hnotin⟩

/-- Witness for the amended C10: resume skill "Java" against JD required
skill "JAVA" — "Java" is matched nowhere and "java" is reported
missing. -/
theorem claim_C10_amended_witness :
    ("Java" ∉ (scoreResume defaultWeights 2 {"Java"} 0 []
      ⟨["JAVA"], [], [], 0⟩).matched_required_skills) ∧
    lowerStr "JAVA" ∈ (scoreResume defaultWeights 2 {"Java"} 0 []
      ⟨["JAVA"], [], [], 0⟩).missing_required_skills :=
  have h := claim_C10_amended defaultWeights 2 {"Java"} 0 [] ⟨["JAVA"], [], [], 0⟩
    "Java" (by decide) ⟨'J', by decide, by decide⟩
  ⟨h.2.2.1, h.2.2.2.2 "JAVA" (by decide) (by decide) (by decide)⟩

/-- Witness for C7 at a concrete JD text: the reported minimum experience
is one of the matched year values and is at most the matched value 5. -/
theorem claim_C7_min_experience_witness :
    (parseText "minimum 3 years, at least 5 years".data).min_experience ∈
      jdYears (lowerList "minimum 3 years, at least 5 years".data) ∧
    (parseText "minimum 3 years, at least 5 years".data).min_experience ≤ 5 :=
  have h := (claim_C7_min_experience "minimum 3 years, at least 5 years".data).2.2
    (by decide)
  ⟨h.1, h.2 5 (by decide)⟩

end ResumeScreening
